import Mathlib

/-! Readback / readfront handler: hash verification of a device range

A shallow embedding of `src/handlers/readback_handler.c` (`readfront`,
`readback`, `verify`) and theorems about it.

Modelling conventions
* The target is an LP64 little-endian Linux system: `unsigned int` is 32 bits,
  `unsigned long` and `off_t` are 64 bits.  Machine integers are `Nat`/`Int`
  with explicit reduction modulo `2^32` / `2^64`.
* The operating system and the helpers of the host program that are not part
  of the handler (`open`, `ioctl`, `lseek`, `close`, `copyfile`,
  `ascii_to_hash`, `IsValidHash`) are the fields of a `Kernel` record acting
  on an explicit world state `σ`.
* Every call the handler makes to the device is recorded in a trace of
  `Event`s, every log macro in a list of `LogMsg`s.
* `BLKGETSIZE64` stores 8 bytes through its pointer argument, and `verify`
  passes the address of the 4-byte `size`.  The frame is the one of an
  unoptimised gcc build for x86-64, where `hash` starts right above `size`:
  the low half of the stored value lands in `size`, the high half in
  `hash[0..3]` (`storeCapacity`).
-/

namespace Readback

/-! ## Constants of the C environment (Linux, LP64) -/

/-- The value of `EINVAL` in `errno.h`. -/
def EINVAL : Int := 22
/-- The value of `ENODEV` in `errno.h`. -/
def ENODEV : Int := 19
/-- The value of `EFAULT` in `errno.h`. -/
def EFAULT : Int := 14
/-- The value of `O_RDONLY` in `fcntl.h`. -/
def O_RDONLY : Int := 0
/-- The value of `SEEK_SET` in `unistd.h`. -/
def SEEK_SET : Int := 0
/-- The request number `BLKGETSIZE64` of `linux/fs.h`, `_IOR(0x12, 114, size_t)`. -/
def BLKGETSIZE64 : Nat := 0x80081272
/-- The largest `unsigned long`. -/
def ULONG_MAX : Nat := 2 ^ 64 - 1
/-- The number of values of an `unsigned int`. -/
def UINT_RANGE : Nat := 2 ^ 32
/-- The number of values of an `unsigned long`. -/
def ULONG_RANGE : Nat := 2 ^ 64

/-! ## Data model -/

/-- A digest buffer `unsigned char hash[SHA256_HASH_LENGTH]`, as its bytes. -/
abbrev Hash := List Nat

/-- The enumeration `script_fn` of the host program. -/
inductive script_fn where
  | NONE
  | PREINSTALL
  | POSTINSTALL
  | POSTFAILURE
  deriving DecidableEq, Repr

/-- The fields of `struct img_type` that the handler reads. -/
structure img_type where
  device : String
  properties : List (String × String)
  deriving DecidableEq, Repr

/-- Modelled from the spec: `dict_get_value` is not part of the handler; the
property table is "a mapping from string keys to string values", and the
lookup yields the value stored under the key, or nothing (`NULL`). -/
def dict_get_value (d : List (String × String)) (key : String) : Option String :=
  match d with
  | [] => none
  | e :: rest => if e.1 = key then some e.2 else dict_get_value rest key

/-! ## `strtoul(s, NULL, 10)` -/

/-- The C library predicate `isspace` in the C locale. -/
def isspace (c : Char) : Bool :=
  c.toNat = 32 || (9 ≤ c.toNat && c.toNat ≤ 13)

/-- The C library predicate `isdigit`. -/
def isdigit (c : Char) : Bool :=
  48 ≤ c.toNat && c.toNat ≤ 57

/-- The value of a decimal digit character. -/
def digitVal (c : Char) : Nat := c.toNat - 48

/-- Drop the leading white space of the subject string. -/
def skipSpace : List Char → List Char
  | [] => []
  | c :: cs => if isspace c then skipSpace cs else c :: cs

/-- Accumulate the longest run of decimal digits at the head of the string,
without bound (the overflow check is made on the result). -/
def accDigits : List Char → Nat → Nat
  | [], acc => acc
  | c :: cs, acc => if isdigit c then accDigits cs (10 * acc + digitVal c) else acc

/-- The conversion of the digits, after white space and sign are removed:
`ULONG_MAX` on overflow, otherwise the value, negated in `unsigned long`
arithmetic when a minus sign was read. -/
def strtoulBody (neg : Bool) (cs : List Char) : Nat :=
  let v := accDigits cs 0
  if ULONG_MAX < v then ULONG_MAX
  else if neg then (ULONG_RANGE - v) % ULONG_RANGE else v

/-- The C library function `strtoul(s, NULL, 10)` on an LP64 system: skip
white space, read an optional sign, convert the longest run of decimal digits
(0 when there is none). -/
def strtoul (s : String) : Nat :=
  match skipSpace s.data with
  | [] => 0
  | c :: cs =>
    if c.toNat = 45 then strtoulBody true cs
    else if c.toNat = 43 then strtoulBody false cs
    else strtoulBody false (c :: cs)

/-- The conversion of an `unsigned long` to `off_t` (two's complement). -/
def toOffT (v : Nat) : Int :=
  if v % ULONG_RANGE < 2 ^ 63 then ((v % ULONG_RANGE : Nat) : Int)
  else ((v % ULONG_RANGE : Nat) : Int) - (ULONG_RANGE : Int)

/-! ## The environment of the handler -/

/-- The eleven arguments of a call of `copyfile`.  A pointer argument that the
handler passes as `NULL` is `none`. -/
structure CopyArgs where
  fdin : Int
  out : Option Nat
  nbytes : Nat
  offs : Nat
  seek : Nat
  skip_file : Int
  compressed : Int
  checksum : Option Nat
  hash : Hash
  encrypted : Int
  callback : Option Nat
  deriving DecidableEq, Repr

/-- One call made by the handler to the device or to `copyfile`, with the
value that came back. -/
inductive Event where
  | open (path : String) (flags : Int) (ret : Int)
  | ioctl (fd : Int) (request : Nat) (ret : Option Nat)
  | lseek (fd : Int) (off : Int) (whence : Int) (ret : Int)
  | copyfile (args : CopyArgs) (ret : Int)
  | close (fd : Int)
  deriving DecidableEq, Repr

/-- The severity of a log line. -/
inductive Level where
  | ERROR
  | INFO
  | TRACE
  deriving DecidableEq, Repr

/-- An argument of a log format string. -/
inductive LogArg where
  | str (s : String)
  | num (i : Int)
  | strerror
  deriving DecidableEq, Repr

/-- One use of a log macro: the format string and its arguments. -/
structure LogMsg where
  level : Level
  fmt : String
  args : List LogArg
  deriving DecidableEq, Repr

/-- The functions the handler calls and does not define, acting on a world
state `σ`.
* `ascii_to_hash s` is `none` when the C function returns a negative value,
  and the filled digest buffer otherwise.
* `c_ioctl fd req` is `none` when `ioctl` returns a negative value, and the
  64-bit value the request stores through its pointer argument otherwise. -/
structure Kernel (σ : Type) where
  ascii_to_hash : String → Option Hash
  IsValidHash : Hash → Bool
  c_open : String → Int → σ → Int × σ
  c_ioctl : Int → Nat → σ → Option Nat × σ
  c_lseek : Int → Int → Int → σ → Int × σ
  copyfile : CopyArgs → σ → Int × σ
  c_close : Int → σ → σ

/-- What a run of the handler leaves behind: the returned `int`, the calls
made, the log lines, and the final world. -/
structure Outcome (σ : Type) where
  status : Int
  trace : List Event
  log : List LogMsg
  world : σ

/-! ## The handler -/

/-- The value of the local `unsigned int size` after the property lookup:
`strtoul` of the property converted to 32 bits, 0 when it is absent. -/
def sizeProperty (img : img_type) : Nat :=
  match dict_get_value img.properties "size" with
  | some value => strtoul value % UINT_RANGE
  | none => 0

/-- The value of the local `unsigned long offset` after the property lookup. -/
def offsetProperty (img : img_type) : Nat :=
  match dict_get_value img.properties "offset" with
  | some value => strtoul value
  | none => 0

/-- The log lines of the two optional property lookups. -/
def propertyLog (img : img_type) : List LogMsg :=
  (match dict_get_value img.properties "size" with
    | some _ => []
    | none => [⟨Level.TRACE, "Property size not found, use partition size", []⟩]) ++
  (match dict_get_value img.properties "offset" with
    | some _ => []
    | none => [⟨Level.TRACE, "Property offset not found, use default 0", []⟩])

/-- The argument list of the one `copyfile` call of `verify`. -/
def copyArgs (fdin : Int) (size : Nat) (hash : Hash) : CopyArgs :=
  { fdin := fdin, out := none, nbytes := size, offs := 0, seek := 0,
    skip_file := 1, compressed := 0, checksum := none, hash := hash,
    encrypted := 0, callback := none }

/-- The four bytes of a 32-bit value, least significant first. -/
def leBytes32 (v : Nat) : List Nat :=
  [v % 256, v / 256 % 256, v / 65536 % 256, v / 16777216 % 256]

/-- The locals `size` and `hash` after `ioctl(fdin, BLKGETSIZE64, &size)` has
stored the 64-bit capacity `c` at the address of the 32-bit `size`: the low 32
bits are in `size`, and the high 32 bits have replaced `hash[0..3]`, which
lies right above `size` in the frame. -/
def storeCapacity (c : Nat) (hash : Hash) : Nat × Hash :=
  (c % UINT_RANGE, leBytes32 (c / UINT_RANGE % UINT_RANGE) ++ hash.drop 4)

/-- The second half of `verify`, from the `lseek` on (the seek, the digest
pass, the log line of the result, the `close`), entered with the descriptor
`fdin`, the length `size`, and the calls and log lines made so far. -/
def seekAndDigest {σ : Type} (k : Kernel σ) (handler_name ascii_hash : String)
    (hash : Hash) (fdin : Int) (offset size : Nat) (t : List Event)
    (log : List LogMsg) (w : σ) : Outcome σ :=
  let r3 := k.c_lseek fdin (toOffT offset) SEEK_SET w
  let t3 := t ++ [Event.lseek fdin (toOffT offset) SEEK_SET r3.1]
  if r3.1 < 0 then
    ⟨-EFAULT, t3 ++ [Event.close fdin],
      log ++ [⟨Level.ERROR, "Seek %lu bytes failed: %s", [.num offset, .strerror]⟩],
      k.c_close fdin r3.2⟩
  else
  let r4 := k.copyfile (copyArgs fdin size hash) r3.2
  let status := r4.1
  let log4 : LogMsg :=
    if status = 0 then
      ⟨Level.INFO, "%s verification success %s", [.str handler_name, .str ascii_hash]⟩
    else
      ⟨Level.ERROR, "%s verification failed, status=%d", [.str handler_name, .num status]⟩
  ⟨status, t3 ++ [Event.copyfile (copyArgs fdin size hash) status, Event.close fdin],
    log ++ [log4], k.c_close fdin r4.2⟩

/-- The function `verify` of the handler.  After a successful capacity query
the locals `size` and `hash` are the ones `storeCapacity` leaves. -/
def verify {σ : Type} (k : Kernel σ) (img : img_type) (handler_name : String)
    (w : σ) : Outcome σ :=
  let invalid : Outcome σ := ⟨-EINVAL, [], [⟨Level.ERROR, "Invalid hash", []⟩], w⟩
  match dict_get_value img.properties "sha256" with
  | none => invalid
  | some ascii_hash =>
  match k.ascii_to_hash ascii_hash with
  | none => invalid
  | some hash =>
  if k.IsValidHash hash = false then invalid else
  let size := sizeProperty img
  let offset := offsetProperty img
  let log0 := propertyLog img
  let r1 := k.c_open img.device O_RDONLY w
  let fdin := r1.1
  let t1 := [Event.open img.device O_RDONLY fdin]
  if fdin < 0 then
    ⟨-ENODEV, t1,
      log0 ++ [⟨Level.ERROR, "Failed to open %s: %s", [.str img.device, .strerror]⟩], r1.2⟩
  else
  if size = 0 then
    let r2 := k.c_ioctl fdin BLKGETSIZE64 r1.2
    match r2.1 with
    | none =>
      ⟨-EFAULT, t1 ++ [Event.ioctl fdin BLKGETSIZE64 none, Event.close fdin],
        log0 ++ [⟨Level.ERROR, "Cannot get size of %s", [.str img.device]⟩],
        k.c_close fdin r2.2⟩
    | some c =>
      let st := storeCapacity c hash
      seekAndDigest k handler_name ascii_hash st.2 fdin offset st.1
        (t1 ++ [Event.ioctl fdin BLKGETSIZE64 (some c)])
        (log0 ++ [⟨Level.TRACE, "Partition size: %u", [.num (st.1 : Nat)]⟩]) r2.2
  else
    seekAndDigest k handler_name ascii_hash hash fdin offset size t1 log0 r1.2

/-- The function `readfront` of the handler; `data` is `none` for a null
pointer. -/
def readfront {σ : Type} (k : Kernel σ) (img : img_type) (data : Option script_fn)
    (w : σ) : Outcome σ :=
  match data with
  | none => ⟨-1, [], [], w⟩
  | some script_fn.PREINSTALL =>
    let r := verify k img "readfront" w
    { r with log := ⟨Level.INFO, "Entering readfront handler", []⟩ :: r.log }
  | some _ => ⟨0, [], [], w⟩

/-- The function `readback` of the handler; `data` is `none` for a null
pointer. -/
def readback {σ : Type} (k : Kernel σ) (img : img_type) (data : Option script_fn)
    (w : σ) : Outcome σ :=
  match data with
  | none => ⟨-1, [], [], w⟩
  | some script_fn.POSTINSTALL =>
    let r := verify k img "readback" w
    { r with log := ⟨Level.INFO, "Entering readback handler", []⟩ :: r.log }
  | some _ => ⟨0, [], [], w⟩

/-! ## A concrete environment: one block device -/

/-- The value of a hexadecimal digit character, if it is one. -/
def hexVal (c : Char) : Option Nat :=
  if isdigit c then some (c.toNat - 48)
  else if 97 ≤ c.toNat ∧ c.toNat ≤ 102 then some (c.toNat - 87)
  else if 65 ≤ c.toNat ∧ c.toNat ≤ 70 then some (c.toNat - 55)
  else none

/-- The bytes written by a string of hexadecimal digit pairs. -/
def hexBytes : List Char → Option (List Nat)
  | [] => some []
  | [_] => none
  | a :: b :: rest =>
    match hexVal a, hexVal b, hexBytes rest with
    | some x, some y, some r => some ((16 * x + y) :: r)
    | _, _, _ => none

/-- Modelled from the spec: `ascii_to_hash` is not part of the handler; the
expected digest is "textual, fixed-length hexadecimal", and the parse fails
"if the text is not valid hexadecimal or decodes to the wrong byte length"
(32 bytes, 64 digits). -/
def hexToHash (s : String) : Option Hash :=
  if s.data.length = 64 then hexBytes s.data else none

/-- Modelled from the spec: `IsValidHash` is not part of the handler; the
invalid-digest sentinel is the all-zero value. -/
def notAllZero (h : Hash) : Bool := h.any (fun b => b != 0)

/-- A device node or file: its path, whether it is a block device (and so
answers the capacity query), its capacity in bytes, and the digest of each of
its byte ranges `(offset, length)`. -/
structure Disk where
  path : String
  blockDevice : Bool
  capacity : Nat
  digest : Nat → Nat → Hash

/-- A system with the single device `d`.  The world state is the file
position of descriptor 3 while the device is open, and `none` while it is
closed.  `copyfile` succeeds when the requested bytes are there and their
digest is the expected one, and returns `-EFAULT` otherwise. -/
def diskKernel (d : Disk) : Kernel (Option Nat) where
  ascii_to_hash := hexToHash
  IsValidHash := notAllZero
  c_open path flags w :=
    if path = d.path ∧ flags = O_RDONLY then (3, some 0) else (-1, w)
  c_ioctl fd req w :=
    if fd = 3 ∧ req = BLKGETSIZE64 ∧ d.blockDevice = true ∧ w.isSome then (some d.capacity, w)
    else (none, w)
  c_lseek fd off whence w :=
    if fd = 3 ∧ whence = SEEK_SET ∧ 0 ≤ off ∧ w.isSome then (off, some off.toNat)
    else (-1, w)
  copyfile a w :=
    match w with
    | some pos =>
      if a.fdin = 3 ∧ pos + a.nbytes ≤ d.capacity ∧ a.hash = d.digest pos a.nbytes then
        (0, some (pos + a.nbytes))
      else (-EFAULT, w)
    | none => (-EFAULT, w)
  c_close fd w := if fd = 3 then none else w

/-- The SHA-256 digest of the empty byte string. -/
def sha256Empty : Hash :=
  [0xe3, 0xb0, 0xc4, 0x42, 0x98, 0xfc, 0x1c, 0x14, 0x9a, 0xfb, 0xf4, 0xc8, 0x99, 0x6f,
   0xb9, 0x24, 0x27, 0xae, 0x41, 0xe4, 0x64, 0x9b, 0x93, 0x4c, 0xa4, 0x95, 0x99, 0x1b,
   0x78, 0x52, 0xb8, 0x55]

/-- The text of `sha256Empty`. -/
def sha256EmptyText : String :=
  "e3b0c44298fc1c149afbf4c8996fb92427ae41e4649b934ca495991b7852b855"

/-- The digest table of the example devices: the empty range has the digest
of the empty string, every other range a digest of 32 bytes `0xab`. -/
def demoDigest (_off len : Nat) : Hash :=
  if len = 0 then sha256Empty else List.replicate 32 0xab

/-- The text of the digest of the non-empty ranges of the example devices. -/
def demoText : String :=
  "abababababababababababababababababababababababababababababababab"

/-- A device of 1,048,576 bytes. -/
def mebiDisk : Disk := ⟨"/dev/mmcblk0p1", true, 1048576, demoDigest⟩

/-- A device of capacity 0. -/
def emptyDisk : Disk := ⟨"/dev/loop0", true, 0, demoDigest⟩

/-- An image to verify the whole of `mebiDisk`: no size, no offset. -/
def wholeImage : img_type := ⟨"/dev/mmcblk0p1", [("sha256", demoText)]⟩

/-- An image to verify 1024 bytes of `mebiDisk` from offset 512. -/
def rangeImage : img_type :=
  ⟨"/dev/mmcblk0p1", [("sha256", demoText), ("size", "1024"), ("offset", "512")]⟩

/-- An image with an offset and no size. -/
def offsetImage : img_type :=
  ⟨"/dev/mmcblk0p1", [("sha256", demoText), ("offset", "512")]⟩

/-- An image whose digest is the all-zero value. -/
def zeroDigestImage : img_type :=
  ⟨"/dev/mmcblk0p1",
    [("sha256", "0000000000000000000000000000000000000000000000000000000000000000")]⟩

/-- An image for a device node that does not exist. -/
def missingDeviceImage : img_type := ⟨"/dev/missing", [("sha256", demoText)]⟩

/-- An image for the regular file `plainFile`, without a size. -/
def fileImage : img_type := ⟨"/tmp/image.bin", [("sha256", demoText)]⟩

/-- An image whose offset converts to a negative `off_t`. -/
def badOffsetImage : img_type :=
  ⟨"/dev/mmcblk0p1", [("sha256", demoText), ("size", "1024"), ("offset", "-1")]⟩

/-- An image whose size property is the numeral 0. -/
def zeroSizeImage : img_type := ⟨"/dev/mmcblk0p1", [("sha256", demoText), ("size", "0")]⟩

/-- An image whose size property is not a number. -/
def wordSizeImage : img_type := ⟨"/dev/mmcblk0p1", [("sha256", demoText), ("size", "all")]⟩

/-- An image for the empty device, expecting the digest of no bytes. -/
def emptyImage : img_type := ⟨"/dev/loop0", [("sha256", sha256EmptyText)]⟩

/-- A regular file of 4096 bytes, which does not answer the capacity query. -/
def plainFile : Disk := ⟨"/tmp/image.bin", false, 4096, demoDigest⟩

end Readback

namespace Readback

/-! ## Observations on a run -/

/-- The expected digest is rejected by the first test of `verify`: the
property is absent, or `ascii_to_hash` fails, or `IsValidHash` is false. -/
def digestRejected {σ : Type} (k : Kernel σ) (img : img_type) : Prop :=
  dict_get_value img.properties "sha256" = none ∨
  (∃ a, dict_get_value img.properties "sha256" = some a ∧ k.ascii_to_hash a = none) ∨
  (∃ a h, dict_get_value img.properties "sha256" = some a ∧ k.ascii_to_hash a = some h ∧
    k.IsValidHash h = false)

/-- The expected digest passes the first test of `verify` and decodes to `hash`. -/
def digestAccepted {σ : Type} (k : Kernel σ) (img : img_type) (hash : Hash) : Prop :=
  ∃ a, dict_get_value img.properties "sha256" = some a ∧ k.ascii_to_hash a = some hash ∧
    k.IsValidHash hash = true

/-- The event is a call of `open`. -/
def isOpen : Event → Bool
  | .open _ _ _ => true
  | _ => false

/-- The event is a call of `ioctl`. -/
def isIoctl : Event → Bool
  | .ioctl _ _ _ => true
  | _ => false

/-- The event is a call of `lseek`. -/
def isLseek : Event → Bool
  | .lseek _ _ _ _ => true
  | _ => false

/-- The event is a call of `copyfile`. -/
def isCopyfile : Event → Bool
  | .copyfile _ _ => true
  | _ => false

/-- The event is a call of `close`. -/
def isClose : Event → Bool
  | .close _ => true
  | _ => false

/-- The event cannot change the device: an `open` is read-only, a `copyfile`
has no output and skips the write, an `ioctl` is the capacity query. -/
def readOnly : Event → Bool
  | .open _ flags _ => flags = O_RDONLY
  | .ioctl _ req _ => req = BLKGETSIZE64
  | .lseek _ _ _ _ => true
  | .copyfile a _ => a.out = none && a.skip_file = 1
  | .close _ => true

/-- The calls between `open` and `lseek`, and the length and digest they leave
in `size` and `hash`: no call, the converted property and the decoded digest
when the property is not 0; the capacity query and what its store leaves when
it is. -/
def Resolved (img : img_type) (fd : Int) (hash : Hash) (q : List Event) (sz : Nat)
    (h2 : Hash) : Prop :=
  (sizeProperty img ≠ 0 ∧ q = [] ∧ sz = sizeProperty img ∧ h2 = hash) ∨
  (sizeProperty img = 0 ∧ ∃ c, q = [Event.ioctl fd BLKGETSIZE64 (some c)] ∧
    sz = (storeCapacity c hash).1 ∧ h2 = (storeCapacity c hash).2)

/-- Run the calls of a trace, in order, against the kernel from the world `w`:
the world each call returns is the world of the next call, and the value each
call returns must be the one recorded.  The result is the world after the last
call, or `none` when some recorded value is not what the kernel returns. -/
def replay {σ : Type} (k : Kernel σ) : List Event → σ → Option σ
  | [], w => some w
  | Event.open path flags ret :: t, w =>
    if (k.c_open path flags w).1 = ret then replay k t (k.c_open path flags w).2 else none
  | Event.ioctl fd req ret :: t, w =>
    if (k.c_ioctl fd req w).1 = ret then replay k t (k.c_ioctl fd req w).2 else none
  | Event.lseek fd off whence ret :: t, w =>
    if (k.c_lseek fd off whence w).1 = ret then replay k t (k.c_lseek fd off whence w).2
    else none
  | Event.copyfile args ret :: t, w =>
    if (k.copyfile args w).1 = ret then replay k t (k.copyfile args w).2 else none
  | Event.close fd :: t, w => replay k t (k.c_close fd w)

/-! ## The five shapes of a run of `verify` -/

theorem seekAndDigest_cases {σ : Type} (k : Kernel σ) (n a : String) (hash : Hash)
    (fd : Int) (off sz : Nat) (t : List Event) (lg : List LogMsg) (w : σ) :
    (∃ pos, pos < 0 ∧ (seekAndDigest k n a hash fd off sz t lg w).status = -EFAULT ∧
      (seekAndDigest k n a hash fd off sz t lg w).trace =
        t ++ [Event.lseek fd (toOffT off) SEEK_SET pos, Event.close fd]) ∨
    (∃ pos, 0 ≤ pos ∧
      (seekAndDigest k n a hash fd off sz t lg w).trace =
        t ++ [Event.lseek fd (toOffT off) SEEK_SET pos,
          Event.copyfile (copyArgs fd sz hash) (seekAndDigest k n a hash fd off sz t lg w).status,
          Event.close fd]) := by
  unfold seekAndDigest
  by_cases h : (k.c_lseek fd (toOffT off) SEEK_SET w).1 < 0
  · left
    exact ⟨_, h, by simp [h], by simp [h]⟩
  · right
    exact ⟨_, not_lt.mp h, by simp [h]⟩

theorem verify_cases {σ : Type} (k : Kernel σ) (img : img_type) (n : String) (w : σ) :
    (digestRejected k img ∧ (verify k img n w).status = -EINVAL ∧
      (verify k img n w).trace = [] ∧ (verify k img n w).world = w) ∨
    (∃ hash fd, digestAccepted k img hash ∧ fd < 0 ∧
      (verify k img n w).status = -ENODEV ∧
      (verify k img n w).trace = [Event.open img.device O_RDONLY fd]) ∨
    (∃ hash fd, digestAccepted k img hash ∧ 0 ≤ fd ∧ sizeProperty img = 0 ∧
      (verify k img n w).status = -EFAULT ∧
      (verify k img n w).trace =
        [Event.open img.device O_RDONLY fd, Event.ioctl fd BLKGETSIZE64 none,
          Event.close fd]) ∨
    (∃ hash fd q sz h2 pos, digestAccepted k img hash ∧ 0 ≤ fd ∧
      Resolved img fd hash q sz h2 ∧
      pos < 0 ∧ (verify k img n w).status = -EFAULT ∧
      (verify k img n w).trace =
        Event.open img.device O_RDONLY fd :: q ++
          [Event.lseek fd (toOffT (offsetProperty img)) SEEK_SET pos, Event.close fd]) ∨
    (∃ hash fd q sz h2 pos, digestAccepted k img hash ∧ 0 ≤ fd ∧
      Resolved img fd hash q sz h2 ∧
      0 ≤ pos ∧
      (verify k img n w).trace =
        Event.open img.device O_RDONLY fd :: q ++
          [Event.lseek fd (toOffT (offsetProperty img)) SEEK_SET pos,
            Event.copyfile (copyArgs fd sz h2) (verify k img n w).status,
            Event.close fd]) := by
  cases ha : dict_get_value img.properties "sha256" with
  | none => left; exact ⟨Or.inl ha, by simp [verify, ha], by simp [verify, ha],
      by simp [verify, ha]⟩
  | some a =>
    cases hh : k.ascii_to_hash a with
    | none => left; exact ⟨Or.inr (Or.inl ⟨a, ha, hh⟩), by simp [verify, ha, hh],
        by simp [verify, ha, hh], by simp [verify, ha, hh]⟩
    | some hash =>
      by_cases hv : k.IsValidHash hash = false
      · left
        exact ⟨Or.inr (Or.inr ⟨a, hash, ha, hh, hv⟩), by simp [verify, ha, hh, hv],
          by simp [verify, ha, hh, hv], by simp [verify, ha, hh, hv]⟩
      · right
        have hacc : digestAccepted k img hash := ⟨a, ha, hh, by simpa using hv⟩
        by_cases ho : (k.c_open img.device O_RDONLY w).1 < 0
        · left
          exact ⟨hash, _, hacc, ho, by simp [verify, ha, hh, hv, ho],
            by simp [verify, ha, hh, hv, ho]⟩
        · right
          have ho2 : 0 ≤ (k.c_open img.device O_RDONLY w).1 := not_lt.mp ho
          by_cases hs : sizeProperty img = 0
          · cases hq : (k.c_ioctl (k.c_open img.device O_RDONLY w).1 BLKGETSIZE64
                (k.c_open img.device O_RDONLY w).2).1 with
            | none =>
              left
              exact ⟨hash, _, hacc, ho2, hs, by simp [verify, ha, hh, hv, ho, hs, hq],
                by simp [verify, ha, hh, hv, ho, hs, hq]⟩
            | some c =>
              right
              have hveq : verify k img n w =
                  seekAndDigest k n a (storeCapacity c hash).2
                    (k.c_open img.device O_RDONLY w).1
                    (offsetProperty img) (storeCapacity c hash).1
                    [Event.open img.device O_RDONLY (k.c_open img.device O_RDONLY w).1,
                      Event.ioctl (k.c_open img.device O_RDONLY w).1 BLKGETSIZE64 (some c)]
                    (propertyLog img ++
                      [⟨Level.TRACE, "Partition size: %u",
                        [.num ((storeCapacity c hash).1 : Nat)]⟩])
                    (k.c_ioctl (k.c_open img.device O_RDONLY w).1 BLKGETSIZE64
                      (k.c_open img.device O_RDONLY w).2).2 := by
                simp [verify, ha, hh, hv, ho, hs, hq]
              rw [hveq]
              rcases seekAndDigest_cases k n a (storeCapacity c hash).2
                (k.c_open img.device O_RDONLY w).1
                (offsetProperty img) (storeCapacity c hash).1
                [Event.open img.device O_RDONLY (k.c_open img.device O_RDONLY w).1,
                  Event.ioctl (k.c_open img.device O_RDONLY w).1 BLKGETSIZE64 (some c)]
                (propertyLog img ++
                  [⟨Level.TRACE, "Partition size: %u",
                    [.num ((storeCapacity c hash).1 : Nat)]⟩])
                (k.c_ioctl (k.c_open img.device O_RDONLY w).1 BLKGETSIZE64
                  (k.c_open img.device O_RDONLY w).2).2 with
                ⟨pos, hp, h1, h2⟩ | ⟨pos, hp, h2⟩
              · left
                refine ⟨hash, _, _, _, _, pos, hacc, ho2, Or.inr ⟨hs, c, rfl, rfl, rfl⟩, hp,
                  h1, ?_⟩
                simpa using h2
              · right
                refine ⟨hash, _, _, _, _, pos, hacc, ho2, Or.inr ⟨hs, c, rfl, rfl, rfl⟩, hp,
                  ?_⟩
                simpa using h2
          · right
            have hveq : verify k img n w =
                seekAndDigest k n a hash (k.c_open img.device O_RDONLY w).1
                  (offsetProperty img) (sizeProperty img)
                  [Event.open img.device O_RDONLY (k.c_open img.device O_RDONLY w).1]
                  (propertyLog img) (k.c_open img.device O_RDONLY w).2 := by
              simp [verify, ha, hh, hv, ho, hs]
            rw [hveq]
            rcases seekAndDigest_cases k n a hash (k.c_open img.device O_RDONLY w).1
                (offsetProperty img) (sizeProperty img)
                [Event.open img.device O_RDONLY (k.c_open img.device O_RDONLY w).1]
                (propertyLog img) (k.c_open img.device O_RDONLY w).2 with
                ⟨pos, hp, h1, h2⟩ | ⟨pos, hp, h2⟩
            · left
              refine ⟨hash, _, _, _, _, pos, hacc, ho2, Or.inl ⟨hs, rfl, rfl, rfl⟩, hp, h1, ?_⟩
              simpa using h2
            · right
              refine ⟨hash, _, _, _, _, pos, hacc, ho2, Or.inl ⟨hs, rfl, rfl, rfl⟩, hp, ?_⟩
              simpa using h2

theorem digitChar_isdigit (d : Nat) (h : d < 10) :
    isdigit (Nat.digitChar d) = true ∧ digitVal (Nat.digitChar d) = d := by
  interval_cases d <;> decide

theorem accDigits_append (xs rest : List Char) (acc : Nat)
    (h : ∀ c ∈ xs, isdigit c = true) :
    accDigits (xs ++ rest) acc = accDigits rest (accDigits xs acc) := by
  induction xs generalizing acc with
  | nil => rfl
  | cons c cs ih =>
    have hc : isdigit c = true := h c (List.mem_cons_self _ _)
    simp only [List.cons_append, accDigits, hc, if_true]
    exact ih _ (fun x hx => h x (List.mem_cons_of_mem _ hx))

theorem toDigitsCore_append (fuel n : Nat) (ds : List Char) :
    Nat.toDigitsCore 10 fuel n ds = Nat.toDigitsCore 10 fuel n [] ++ ds := by
  induction fuel generalizing n ds with
  | zero => simp [Nat.toDigitsCore]
  | succ f ih =>
    simp only [Nat.toDigitsCore]
    split
    · simp
    · rw [ih (n / 10) (Nat.digitChar (n % 10) :: ds), ih (n / 10) [Nat.digitChar (n % 10)]]
      simp

theorem toDigitsCore_spec (fuel n : Nat) (h : n < fuel) :
    (∀ c ∈ Nat.toDigitsCore 10 fuel n [], isdigit c = true) ∧
    accDigits (Nat.toDigitsCore 10 fuel n []) 0 = n ∧
    Nat.toDigitsCore 10 fuel n [] ≠ [] := by
  induction fuel generalizing n with
  | zero => omega
  | succ f ih =>
    have hd := digitChar_isdigit (n % 10) (Nat.mod_lt _ (by norm_num))
    simp only [Nat.toDigitsCore]
    split
    · rename_i h0
      have hn : n % 10 = n := by omega
      refine ⟨?_, ?_, by simp⟩
      · intro c hc
        simp only [List.mem_singleton] at hc
        rw [hc]; exact hd.1
      · simp only [accDigits, hd.1, hd.2, if_true]
        omega
    · rename_i h0
      have hlt : n / 10 < f := by omega
      obtain ⟨i1, i2, i3⟩ := ih (n / 10) hlt
      rw [toDigitsCore_append]
      refine ⟨?_, ?_, by simp [i3]⟩
      · intro c hc
        rcases List.mem_append.mp hc with hc | hc
        · exact i1 c hc
        · simp only [List.mem_singleton] at hc
          rw [hc]; exact hd.1
      · rw [accDigits_append _ _ _ i1, i2]
        simp only [accDigits, hd.1, hd.2, if_true]
        omega

theorem skipSpace_digit (c : Char) (cs : List Char) (h : isdigit c = true) :
    skipSpace (c :: cs) = c :: cs ∧ c.toNat ≠ 45 ∧ c.toNat ≠ 43 := by
  simp only [isdigit, Bool.and_eq_true, decide_eq_true_eq] at h
  refine ⟨?_, by omega, by omega⟩
  have : isspace c = false := by
    simp only [isspace, Bool.or_eq_false_iff, Bool.and_eq_false_iff, decide_eq_false_iff_not]
    omega
  simp [skipSpace, this]

/-- The conversion of the decimal numeral of a value that fits an `unsigned long`
is the value. -/
theorem strtoul_toString (v : Nat) (h : v < 2 ^ 64) : strtoul (toString v) = v := by
  have hdata : (toString v).data = Nat.toDigitsCore 10 (v + 1) v [] := rfl
  obtain ⟨h1, h2, h3⟩ := toDigitsCore_spec (v + 1) v (Nat.lt_succ_self v)
  unfold strtoul
  rw [hdata]
  cases hds : Nat.toDigitsCore 10 (v + 1) v [] with
  | nil => exact absurd hds h3
  | cons c cs =>
    rw [hds] at h1 h2
    have hc := skipSpace_digit c cs (h1 c (List.mem_cons_self _ _))
    rw [hc.1]
    simp only [hc.2.1, hc.2.2, if_false, strtoulBody, h2, ULONG_MAX]
    rw [if_neg (by omega)]
    simp


/-! ## The trace is what happened -/

theorem replay_append {σ : Type} (k : Kernel σ) (t1 t2 : List Event) (w : σ) :
    replay k (t1 ++ t2) w = (replay k t1 w).bind (replay k t2) := by
  induction t1 generalizing w with
  | nil => rfl
  | cons e t ih =>
    cases e <;> simp only [List.cons_append, replay]
    all_goals first
      | exact ih _
      | (split
         · exact ih _
         · rfl)

theorem verify_faithful {σ : Type} (k : Kernel σ) (img : img_type) (n : String) (w : σ) :
    replay k (verify k img n w).trace w = some (verify k img n w).world := by
  unfold verify
  simp only [seekAndDigest]
  repeat' split
  all_goals simp_all [replay]

theorem verify_explicit_path {σ : Type} (k : Kernel σ) (img : img_type) (n : String)
    (w : σ) (a : String) (hash : Hash) (fd : Int) (w1 : σ) (pos : Int) (w2 : σ)
    (ret : Int) (w3 : σ)
    (ha : dict_get_value img.properties "sha256" = some a)
    (hh : k.ascii_to_hash a = some hash) (hv : k.IsValidHash hash = true)
    (hsz : sizeProperty img ≠ 0)
    (hopen : k.c_open img.device O_RDONLY w = (fd, w1)) (hfd : 0 ≤ fd)
    (hseek : k.c_lseek fd (toOffT (offsetProperty img)) SEEK_SET w1 = (pos, w2))
    (hpos : 0 ≤ pos)
    (hcopy : k.copyfile (copyArgs fd (sizeProperty img) hash) w2 = (ret, w3)) :
    (verify k img n w).status = ret ∧
    (verify k img n w).trace =
      [Event.open img.device O_RDONLY fd,
        Event.lseek fd (toOffT (offsetProperty img)) SEEK_SET pos,
        Event.copyfile (copyArgs fd (sizeProperty img) hash) ret, Event.close fd] ∧
    (verify k img n w).world = k.c_close fd w3 := by
  have hfd2 : ¬ fd < 0 := not_lt.mpr hfd
  have hpos2 : ¬ pos < 0 := not_lt.mpr hpos
  simp [verify, seekAndDigest, ha, hh, hv, hsz, hopen, hfd2, hseek, hpos2, hcopy]

theorem verify_query_path {σ : Type} (k : Kernel σ) (img : img_type) (n : String)
    (w : σ) (a : String) (hash : Hash) (fd : Int) (w1 : σ) (c : Nat) (w2 : σ) (pos : Int)
    (w3 : σ) (ret : Int) (w4 : σ)
    (ha : dict_get_value img.properties "sha256" = some a)
    (hh : k.ascii_to_hash a = some hash) (hv : k.IsValidHash hash = true)
    (hsz : sizeProperty img = 0)
    (hopen : k.c_open img.device O_RDONLY w = (fd, w1)) (hfd : 0 ≤ fd)
    (hq : k.c_ioctl fd BLKGETSIZE64 w1 = (some c, w2))
    (hseek : k.c_lseek fd (toOffT (offsetProperty img)) SEEK_SET w2 = (pos, w3))
    (hpos : 0 ≤ pos)
    (hcopy : k.copyfile (copyArgs fd (storeCapacity c hash).1 (storeCapacity c hash).2) w3 =
      (ret, w4)) :
    (verify k img n w).status = ret ∧
    (verify k img n w).trace =
      [Event.open img.device O_RDONLY fd, Event.ioctl fd BLKGETSIZE64 (some c),
        Event.lseek fd (toOffT (offsetProperty img)) SEEK_SET pos,
        Event.copyfile (copyArgs fd (storeCapacity c hash).1 (storeCapacity c hash).2) ret,
        Event.close fd] ∧
    (verify k img n w).world = k.c_close fd w4 := by
  have hfd2 : ¬ fd < 0 := not_lt.mpr hfd
  have hpos2 : ¬ pos < 0 := not_lt.mpr hpos
  simp [verify, seekAndDigest, ha, hh, hv, hsz, hopen, hfd2, hq, hseek, hpos2, hcopy]

theorem storeCapacity_of_lt (c : Nat) (hash : Hash) (hc : c < 2 ^ 32) :
    storeCapacity c hash = (c, [0, 0, 0, 0] ++ hash.drop 4) := by
  have h1 : c % UINT_RANGE = c := Nat.mod_eq_of_lt (by unfold UINT_RANGE; omega)
  have h2 : c / UINT_RANGE = 0 := Nat.div_eq_of_lt (by unfold UINT_RANGE; omega)
  simp [storeCapacity, h1, h2, leBytes32]

theorem digestAccepted_not_rejected {σ : Type} (k : Kernel σ) (img : img_type) (hash : Hash)
    (ha : digestAccepted k img hash) : ¬ digestRejected k img := by
  obtain ⟨a, h1, h2, h3⟩ := ha
  rintro (h | ⟨b, hb, h⟩ | ⟨b, g, hb, hg, h⟩)
  · rw [h] at h1; cases h1
  · rw [hb] at h1; cases h1; rw [h] at h2; cases h2
  · rw [hb] at h1; cases h1; rw [hg] at h2; cases h2; rw [h] at h3; cases h3

/-! ## The claims -/

/-- C2. When the `sha256` property is absent, or `ascii_to_hash` fails on it,
or `IsValidHash` is false on the decoded digest, `verify` returns `-EINVAL`
(which is not 0) and has made no call at all: no `open`, capacity query, seek,
digest pass or `close`, and the world is unchanged. -/
theorem verify_rejects_bad_digest {σ : Type} (k : Kernel σ) (img : img_type) (n : String)
    (w : σ) (h : digestRejected k img) :
    (verify k img n w).status = -EINVAL ∧ (verify k img n w).status ≠ 0 ∧
    (verify k img n w).trace = [] ∧ (verify k img n w).world = w := by
  rcases verify_cases k img n w with ⟨_, hs, ht, hw⟩ | ⟨hash, fd, ha, _⟩ |
    ⟨hash, fd, ha, _⟩ | ⟨hash, fd, q, sz, h2, pos, ha, _⟩ | ⟨hash, fd, q, sz, h2, pos, ha, _⟩
  · exact ⟨hs, by rw [hs]; decide, ht, hw⟩
  all_goals exact absurd h (digestAccepted_not_rejected k img hash ha)

theorem verify_rejects_bad_digest_witness :
    digestRejected (diskKernel mebiDisk) zeroDigestImage ∧
    ((verify (diskKernel mebiDisk) zeroDigestImage "readback" none).status = -EINVAL ∧
      (verify (diskKernel mebiDisk) zeroDigestImage "readback" none).status ≠ 0 ∧
      (verify (diskKernel mebiDisk) zeroDigestImage "readback" none).trace = [] ∧
      (verify (diskKernel mebiDisk) zeroDigestImage "readback" none).world = none) :=
  ⟨Or.inr (Or.inr ⟨"0000000000000000000000000000000000000000000000000000000000000000",
      List.replicate 32 0, by decide, by decide, by decide⟩),
    verify_rejects_bad_digest (diskKernel mebiDisk) zeroDigestImage "readback" none
      (Or.inr (Or.inr ⟨"0000000000000000000000000000000000000000000000000000000000000000",
        List.replicate 32 0, by decide, by decide, by decide⟩))⟩

/-- C8. A failure before the digest pass is terminal: a failed `open` makes
`verify` return `-ENODEV`, a failed capacity query `-EFAULT`, a failed seek
`-EFAULT`; in each case the value returned is not 0, the failed call occurs
exactly once in the run, and `copyfile` is not called. -/
theorem verify_failure_is_terminal {σ : Type} (k : Kernel σ) (img : img_type) (n : String)
    (w : σ) :
    (∀ path flags fd, Event.open path flags fd ∈ (verify k img n w).trace → fd < 0 →
      (verify k img n w).status = -ENODEV ∧ (verify k img n w).status ≠ 0 ∧
      (verify k img n w).trace.filter isOpen = [Event.open path flags fd] ∧
      (verify k img n w).trace.filter isCopyfile = []) ∧
    (∀ fd req, Event.ioctl fd req none ∈ (verify k img n w).trace →
      (verify k img n w).status = -EFAULT ∧ (verify k img n w).status ≠ 0 ∧
      (verify k img n w).trace.filter isIoctl = [Event.ioctl fd req none] ∧
      (verify k img n w).trace.filter isCopyfile = []) ∧
    (∀ fd off whence pos, Event.lseek fd off whence pos ∈ (verify k img n w).trace →
      pos < 0 →
      (verify k img n w).status = -EFAULT ∧ (verify k img n w).status ≠ 0 ∧
      (verify k img n w).trace.filter isLseek = [Event.lseek fd off whence pos] ∧
      (verify k img n w).trace.filter isCopyfile = []) := by
  generalize hS : (verify k img n w).status = S
  generalize hT : (verify k img n w).trace = T
  rcases verify_cases k img n w with ⟨_, hs, ht, _⟩ | ⟨hash, fd, ha, hfd, hs, ht⟩ |
    ⟨hash, fd, ha, hfd, hsz, hs, ht⟩ | ⟨hash, fd, q, sz, h2, pos, ha, hfd, hres, hpos, hs, ht⟩ |
    ⟨hash, fd, q, sz, h2, pos, ha, hfd, hres, hpos, ht⟩
  · rw [hT] at ht; subst ht
    simp
  · rw [hS] at hs; rw [hT] at ht; subst hs; subst ht
    refine ⟨?_, by simp, by simp⟩
    intro path flags fd1 hmem _
    simp at hmem
    obtain ⟨rfl, rfl, rfl⟩ := hmem
    simp [isOpen, isCopyfile, ENODEV]
  · rw [hS] at hs; rw [hT] at ht; subst hs; subst ht
    refine ⟨?_, ?_, by simp⟩
    · intro path flags fd1 hmem h0
      simp at hmem
      omega
    · intro fd1 req hmem
      simp at hmem
      obtain ⟨rfl, rfl⟩ := hmem
      simp [isIoctl, isCopyfile, EFAULT]
  · rw [hS] at hs; rw [hT] at ht; subst hs; subst ht
    rcases hres with ⟨_, hq, _⟩ | ⟨_, c, hq, _⟩ <;> subst hq
    · refine ⟨?_, by simp, ?_⟩
      · intro path flags fd1 hmem h0
        simp at hmem
        omega
      · intro fd1 off whence p hmem hp
        simp at hmem
        obtain ⟨rfl, rfl, rfl, rfl⟩ := hmem
        simp [isLseek, isCopyfile, EFAULT]
    · refine ⟨?_, by simp, ?_⟩
      · intro path flags fd1 hmem h0
        simp at hmem
        omega
      · intro fd1 off whence p hmem hp
        simp at hmem
        obtain ⟨rfl, rfl, rfl, rfl⟩ := hmem
        simp [isLseek, isCopyfile, EFAULT]
  · rw [hS, hT] at ht; subst ht
    rcases hres with ⟨_, hq, _⟩ | ⟨_, c, hq, _⟩ <;> subst hq
    · refine ⟨?_, by simp, ?_⟩
      · intro path flags fd1 hmem h0
        simp at hmem
        omega
      · intro fd1 off whence p hmem hp
        simp at hmem
        omega
    · refine ⟨?_, by simp, ?_⟩
      · intro path flags fd1 hmem h0
        simp at hmem
        omega
      · intro fd1 off whence p hmem hp
        simp at hmem
        omega

theorem verify_failure_is_terminal_witness :
    (Event.open "/dev/missing" O_RDONLY (-1) ∈
        (verify (diskKernel mebiDisk) missingDeviceImage "readback" none).trace ∧
      (verify (diskKernel mebiDisk) missingDeviceImage "readback" none).status = -ENODEV) ∧
    (Event.ioctl 3 BLKGETSIZE64 none ∈
        (verify (diskKernel plainFile) fileImage "readback" none).trace ∧
      (verify (diskKernel plainFile) fileImage "readback" none).status = -EFAULT) ∧
    (Event.lseek 3 (-1) SEEK_SET (-1) ∈
        (verify (diskKernel mebiDisk) badOffsetImage "readback" none).trace ∧
      (verify (diskKernel mebiDisk) badOffsetImage "readback" none).status = -EFAULT) :=
  ⟨⟨by decide,
      ((verify_failure_is_terminal (diskKernel mebiDisk) missingDeviceImage "readback" none).1
        "/dev/missing" O_RDONLY (-1) (by decide) (by decide)).1⟩,
    ⟨by decide,
      ((verify_failure_is_terminal (diskKernel plainFile) fileImage "readback" none).2.1
        3 BLKGETSIZE64 (by decide)).1⟩,
    ⟨by decide,
      ((verify_failure_is_terminal (diskKernel mebiDisk) badOffsetImage "readback" none).2.2
        3 (-1) SEEK_SET (-1) (by decide) (by decide)).1⟩⟩

theorem verify_lseek_result {σ : Type} (k : Kernel σ) (img : img_type) (n : String)
    (w : σ) (fd off whence pos : Int)
    (hmem : Event.lseek fd off whence pos ∈ (verify k img n w).trace) :
    ∃ s, (k.c_lseek fd off whence s).1 = pos := by
  unfold verify at hmem
  simp only [seekAndDigest] at hmem
  repeat' split at hmem
  all_goals simp at hmem
  all_goals
    obtain ⟨rfl, rfl, rfl, rfl⟩ := hmem
    exact ⟨_, rfl⟩

theorem verify_name_irrelevant {σ : Type} (k : Kernel σ) (img : img_type) (n1 n2 : String)
    (w : σ) :
    (verify k img n1 w).status = (verify k img n2 w).status ∧
    (verify k img n1 w).trace = (verify k img n2 w).trace ∧
    (verify k img n1 w).world = (verify k img n2 w).world := by
  unfold verify
  simp only [seekAndDigest]
  repeat' split
  all_goals simp_all

theorem toOffT_of_lt (v : Nat) (h : v < 2 ^ 63) : toOffT v = (v : Int) := by
  have hm : v % ULONG_RANGE = v := Nat.mod_eq_of_lt (by unfold ULONG_RANGE; omega)
  unfold toOffT
  rw [hm, if_pos h]

theorem toOffT_neg (v : Nat) (h : 2 ^ 63 ≤ v) (h2 : v < 2 ^ 64) : toOffT v < 0 := by
  have hm : v % ULONG_RANGE = v := Nat.mod_eq_of_lt (by unfold ULONG_RANGE; omega)
  unfold toOffT
  rw [hm, if_neg (by omega)]
  unfold ULONG_RANGE
  push_cast
  omega

theorem sizeProperty_toString (img : img_type) (s : Nat)
    (hsize : dict_get_value img.properties "size" = some (toString s)) (h32 : s < 2 ^ 32) :
    sizeProperty img = s := by
  unfold sizeProperty
  rw [hsize]
  simp only
  rw [strtoul_toString s (by omega)]
  exact Nat.mod_eq_of_lt (by unfold UINT_RANGE; omega)

theorem offsetProperty_toString (img : img_type) (v : Nat)
    (hoff : dict_get_value img.properties "offset" = some (toString v)) (h64 : v < 2 ^ 64) :
    offsetProperty img = v := by
  unfold offsetProperty
  rw [hoff]
  simp only
  exact strtoul_toString v h64

theorem sizeProperty_zero_of (img : img_type)
    (h : dict_get_value img.properties "size" = none ∨
      ∃ text, dict_get_value img.properties "size" = some text ∧ strtoul text = 0) :
    sizeProperty img = 0 := by
  unfold sizeProperty
  rcases h with h | ⟨text, h, h0⟩
  · rw [h]
  · rw [h]
    simp only [h0]
    rfl

/-- C7, as the code has it. The capacity query is made exactly once, on the
opened descriptor, when `open` succeeded and the `size` property is absent or
converts to 0 (as the text "0" or a text that is not a number does); it is not
made when the property is the decimal numeral of a value from 1 to `2^32 - 1`,
nor when no descriptor was opened.  Every call of the run is read-only: the
`open` has flags `O_RDONLY`, the `ioctl` is `BLKGETSIZE64`, the `copyfile` has
no output and skips the write. -/
theorem verify_capacity_query_rule {σ : Type} (k : Kernel σ) (img : img_type)
    (n : String) (w : σ) :
    (∀ fd, Event.open img.device O_RDONLY fd ∈ (verify k img n w).trace → 0 ≤ fd →
      (dict_get_value img.properties "size" = none ∨
        ∃ text, dict_get_value img.properties "size" = some text ∧ strtoul text = 0) →
      ∃ r, (verify k img n w).trace.filter isIoctl = [Event.ioctl fd BLKGETSIZE64 r]) ∧
    (∀ s, dict_get_value img.properties "size" = some (toString s) → 0 < s → s < 2 ^ 32 →
      (verify k img n w).trace.filter isIoctl = []) ∧
    ((∀ path flags fd, Event.open path flags fd ∈ (verify k img n w).trace → fd < 0) →
      (verify k img n w).trace.filter isIoctl = []) ∧
    (∀ e ∈ (verify k img n w).trace, readOnly e = true) := by
  have hnum : ∀ s, dict_get_value img.properties "size" = some (toString s) → 0 < s →
      s < 2 ^ 32 → sizeProperty img ≠ 0 := by
    intro s hs h0 h32
    rw [sizeProperty_toString img s hs h32]
    omega
  have hzero := sizeProperty_zero_of img
  generalize hS : (verify k img n w).status = S at *
  generalize hT : (verify k img n w).trace = T at *
  rcases verify_cases k img n w with ⟨_, hs, ht, _⟩ | ⟨hash, fd0, ha, hfd, hs, ht⟩ |
    ⟨hash, fd0, ha, hfd, hz, hs, ht⟩ | ⟨hash, fd0, q, sz, h2, pos, ha, hfd, hres, hpos, hs, ht⟩ |
    ⟨hash, fd0, q, sz, h2, pos, ha, hfd, hres, hpos, ht⟩
  · rw [hT] at ht; subst ht
    simp
  · rw [hT] at ht; subst ht
    refine ⟨?_, by simp [isIoctl], by simp [isIoctl], by simp [readOnly]⟩
    intro fd hmem h0
    simp at hmem
    omega
  · rw [hT] at ht; subst ht
    refine ⟨?_, ?_, ?_, by simp [readOnly]⟩
    · intro fd hmem h0 _
      simp at hmem
      subst hmem
      exact ⟨none, by simp [isIoctl]⟩
    · intro s hs h0 h32
      exact absurd hz (hnum s hs h0 h32)
    · intro h
      have := h img.device O_RDONLY fd0 (by simp)
      omega
  · rw [hT] at ht; subst ht
    rcases hres with ⟨hne, hq, _⟩ | ⟨hz, c, hq, _⟩ <;> subst hq
    · refine ⟨?_, by simp [isIoctl], by simp [isIoctl], by simp [readOnly]⟩
      intro fd hmem h0 hcond
      exact absurd (hzero hcond) hne
    · refine ⟨?_, ?_, ?_, by simp [readOnly]⟩
      · intro fd hmem h0 _
        simp at hmem
        subst hmem
        exact ⟨some c, by simp [isIoctl]⟩
      · intro s hs h0 h32
        exact absurd hz (hnum s hs h0 h32)
      · intro h
        have := h img.device O_RDONLY fd0 (by simp)
        omega
  · rw [hS, hT] at ht; subst ht
    rcases hres with ⟨hne, hq, _⟩ | ⟨hz, c, hq, _⟩ <;> subst hq
    · refine ⟨?_, by simp [isIoctl], by simp [isIoctl], by simp [readOnly, copyArgs]⟩
      intro fd hmem h0 hcond
      exact absurd (hzero hcond) hne
    · refine ⟨?_, ?_, ?_, by simp [readOnly, copyArgs]⟩
      · intro fd hmem h0 _
        simp at hmem
        subst hmem
        exact ⟨some c, by simp [isIoctl]⟩
      · intro s hs h0 h32
        exact absurd hz (hnum s hs h0 h32)
      · intro h
        have := h img.device O_RDONLY fd0 (by simp)
        omega

theorem verify_capacity_query_rule_witness :
    (Event.open wholeImage.device O_RDONLY 3 ∈
        (verify (diskKernel mebiDisk) wholeImage "readback" none).trace ∧
      dict_get_value wholeImage.properties "size" = none ∧
      ∃ r, (verify (diskKernel mebiDisk) wholeImage "readback" none).trace.filter isIoctl =
        [Event.ioctl 3 BLKGETSIZE64 r]) ∧
    (dict_get_value rangeImage.properties "size" = some (toString 1024) ∧
      (verify (diskKernel mebiDisk) rangeImage "readback" none).trace.filter isIoctl = []) :=
  ⟨⟨by decide, by decide,
      (verify_capacity_query_rule (diskKernel mebiDisk) wholeImage "readback" none).1 3
        (by decide) (by decide) (Or.inl (by decide))⟩,
    ⟨by decide,
      (verify_capacity_query_rule (diskKernel mebiDisk) rangeImage "readback" none).2.1 1024
        (by decide) (by decide) (by decide)⟩⟩

/-- C7 as stated fails: with a `size` property present whose text is not a
number, the capacity query is made. -/
theorem verify_queries_with_size_present :
    dict_get_value wordSizeImage.properties "size" = some "all" ∧
    (verify (diskKernel mebiDisk) wordSizeImage "readback" none).trace.filter isIoctl =
      [Event.ioctl 3 BLKGETSIZE64 (some 1048576)] := by
  decide

theorem diskKernel_lseek_negative (d : Disk) (fd off whence : Int) (s : Option Nat)
    (h : off < 0) : ((diskKernel d).c_lseek fd off whence s).1 < 0 := by
  have hc : ¬ (fd = 3 ∧ whence = SEEK_SET ∧ 0 ≤ off ∧ s.isSome = true) := by
    rintro ⟨_, _, h0, _⟩
    omega
  simp only [diskKernel, if_neg hc]
  decide

/-- The conversion of the `size` property to `unsigned int` keeps the low 32
bits: the numeral of `2^32 + 1024` leaves 1024 in `size`. -/
theorem sizeProperty_narrowing_example :
    sizeProperty ⟨"/dev/mmcblk0p1", [("size", toString (2 ^ 32 + 1024))]⟩ = 1024 := by
  decide

theorem verify_log_shape {σ : Type} (k : Kernel σ) (img : img_type) (n1 n2 : String)
    (w : σ) :
    (verify k img n1 w).log.map (fun m => (m.level, m.fmt)) =
      (verify k img n2 w).log.map (fun m => (m.level, m.fmt)) := by
  unfold verify
  simp only [seekAndDigest]
  repeat' split
  all_goals simp_all

/-- C10. Verification does not depend on the phase: `readfront` called with
`PREINSTALL` and `readback` called with `POSTINSTALL` return the same value,
make the same calls with the same arguments in the same order, and leave the
same world; both are the run of `verify` on the image.  Their log lines have
the same levels, and after the first line (which names the handler) the same
format strings. -/
theorem readfront_readback_agree {σ : Type} (k : Kernel σ) (img : img_type) (w : σ) :
    (readfront k img (some script_fn.PREINSTALL) w).status =
      (readback k img (some script_fn.POSTINSTALL) w).status ∧
    (readfront k img (some script_fn.PREINSTALL) w).trace =
      (readback k img (some script_fn.POSTINSTALL) w).trace ∧
    (readfront k img (some script_fn.PREINSTALL) w).world =
      (readback k img (some script_fn.POSTINSTALL) w).world ∧
    (readfront k img (some script_fn.PREINSTALL) w).status =
      (verify k img "readfront" w).status ∧
    (readfront k img (some script_fn.PREINSTALL) w).trace =
      (verify k img "readfront" w).trace ∧
    (readfront k img (some script_fn.PREINSTALL) w).log.map (fun m => m.level) =
      (readback k img (some script_fn.POSTINSTALL) w).log.map (fun m => m.level) ∧
    (readfront k img (some script_fn.PREINSTALL) w).log.tail.map (fun m => (m.level, m.fmt)) =
      (readback k img (some script_fn.POSTINSTALL) w).log.tail.map
        (fun m => (m.level, m.fmt)) := by
  obtain ⟨h1, h2, h3⟩ := verify_name_irrelevant k img "readfront" "readback" w
  have h := verify_log_shape k img "readfront" "readback" w
  refine ⟨h1, h2, h3, rfl, rfl, ?_, ?_⟩
  · have h4 := congrArg (List.map Prod.fst) h
    simp only [List.map_map] at h4
    simpa [readfront, readback] using h4
  · simpa [readfront, readback] using h


theorem replay_close {σ : Type} (k : Kernel σ) (pre : List Event) (fd : Int) (w wf : σ)
    (h : replay k (pre ++ [Event.close fd]) w = some wf) :
    ∃ w1, replay k pre w = some w1 ∧ wf = k.c_close fd w1 := by
  rw [replay_append] at h
  cases hr : replay k pre w with
  | none => rw [hr] at h; simp at h
  | some w1 =>
    rw [hr] at h
    simp [replay] at h
    exact ⟨w1, rfl, h.symm⟩

theorem replay_seek_copy_close {σ : Type} (k : Kernel σ) (pre : List Event)
    (fd off whence pos : Int) (args : CopyArgs) (ret : Int) (w wf : σ)
    (h : replay k (pre ++ [Event.lseek fd off whence pos, Event.copyfile args ret,
      Event.close fd]) w = some wf) :
    ∃ w1, replay k pre w = some w1 ∧ (k.c_lseek fd off whence w1).1 = pos ∧
      (k.copyfile args (k.c_lseek fd off whence w1).2).1 = ret ∧
      wf = k.c_close fd (k.copyfile args (k.c_lseek fd off whence w1).2).2 := by
  rw [replay_append] at h
  cases hr : replay k pre w with
  | none => rw [hr] at h; simp at h
  | some w1 =>
    rw [hr] at h
    simp only [Option.some_bind, replay] at h
    by_cases h1 : (k.c_lseek fd off whence w1).1 = pos
    · rw [if_pos h1] at h
      by_cases h2 : (k.copyfile args (k.c_lseek fd off whence w1).2).1 = ret
      · rw [if_pos h2] at h
        exact ⟨w1, rfl, h1, h2, (Option.some.inj h).symm⟩
      · rw [if_neg h2] at h
        cases h
    · rw [if_neg h1] at h
      cases h

/-- C6. The descriptor is released on every exit path.  Whenever the digest is
accepted, `open` is called on the device and its result recorded.  When it
returned a descriptor (a value that is not negative), the run is `pre` followed
by `close` on that descriptor, with no `close` and exactly one `open` in `pre`,
and the final world is the kernel's `close` applied once to the world the calls
of `pre` leave: the `close` is made, once, after every other call.  When `open`
failed, the failed `open` is the only call and the world is the one it left;
when the digest is rejected, no call is made and the world is unchanged. -/
theorem verify_closes_handle {σ : Type} (k : Kernel σ) (img : img_type) (n : String)
    (w : σ) :
    (∀ hash, digestAccepted k img hash →
      Event.open img.device O_RDONLY (k.c_open img.device O_RDONLY w).1 ∈
        (verify k img n w).trace) ∧
    (∀ path flags fd, Event.open path flags fd ∈ (verify k img n w).trace → 0 ≤ fd →
      ∃ pre w1, (verify k img n w).trace = pre ++ [Event.close fd] ∧
        (∀ e ∈ pre, isClose e = false) ∧ pre.countP isOpen = 1 ∧
        replay k pre w = some w1 ∧ (verify k img n w).world = k.c_close fd w1) ∧
    (∀ path flags fd, Event.open path flags fd ∈ (verify k img n w).trace → fd < 0 →
      (verify k img n w).trace = [Event.open path flags fd] ∧
      (k.c_open path flags w).1 = fd ∧
      (verify k img n w).world = (k.c_open path flags w).2) ∧
    (digestRejected k img →
      (verify k img n w).trace = [] ∧ (verify k img n w).world = w) := by
  have hf : replay k (verify k img n w).trace w = some (verify k img n w).world := by
    unfold verify
    simp only [seekAndDigest]
    repeat' split
    all_goals simp_all [replay]
  generalize hS : (verify k img n w).status = S at *
  generalize hT : (verify k img n w).trace = T at *
  generalize hW : (verify k img n w).world = W at *
  rcases verify_cases k img n w with ⟨hrej, hs, ht, hw⟩ | ⟨hash, fd, ha, hfd, hs, ht⟩ |
    ⟨hash, fd, ha, hfd, hsz, hs, ht⟩ |
    ⟨hash, fd, q, sz, h2, pos, ha, hfd, hres, hpos, hs, ht⟩ |
    ⟨hash, fd, q, sz, h2, pos, ha, hfd, hres, hpos, ht⟩
  · rw [hT] at ht; rw [hW] at hw; subst ht; subst hw
    refine ⟨fun hash ha => absurd hrej (digestAccepted_not_rejected k img hash ha), ?_, ?_, ?_⟩
    · simp
    · simp
    · intro _; exact ⟨rfl, rfl⟩
  · rw [hT] at ht; subst ht
    have hopen : (k.c_open img.device O_RDONLY w).1 = fd ∧
        W = (k.c_open img.device O_RDONLY w).2 := by
      simp only [replay] at hf
      by_cases h1 : (k.c_open img.device O_RDONLY w).1 = fd
      · rw [if_pos h1] at hf
        exact ⟨h1, (Option.some.inj hf).symm⟩
      · rw [if_neg h1] at hf
        cases hf
    refine ⟨fun _ _ => by simp [hopen.1], ?_, ?_,
      fun h => absurd h (digestAccepted_not_rejected k img hash ha)⟩
    · intro path flags fd1 hmem h0
      simp at hmem
      omega
    · intro path flags fd1 hmem _
      simp at hmem
      obtain ⟨rfl, rfl, rfl⟩ := hmem
      exact ⟨rfl, hopen.1, hopen.2⟩
  · rw [hT] at ht; subst ht
    obtain ⟨w1, hr, hwf⟩ := replay_close k
      [Event.open img.device O_RDONLY fd, Event.ioctl fd BLKGETSIZE64 none] fd w W hf
    have hopen : (k.c_open img.device O_RDONLY w).1 = fd := by
      simp only [replay] at hr
      by_cases h1 : (k.c_open img.device O_RDONLY w).1 = fd
      · exact h1
      · rw [if_neg h1] at hr
        cases hr
    refine ⟨fun _ _ => by simp [hopen], ?_, ?_,
      fun h => absurd h (digestAccepted_not_rejected k img hash ha)⟩
    · intro path flags fd1 hmem h0
      simp at hmem
      obtain ⟨rfl, rfl, rfl⟩ := hmem
      exact ⟨[Event.open img.device O_RDONLY fd1, Event.ioctl fd1 BLKGETSIZE64 none], w1,
        by simp, by simp [isClose], by simp [isOpen], hr, hwf⟩
    · intro path flags fd1 hmem h0
      simp at hmem
      omega
  · rw [hT] at ht; subst ht
    have hshape : Event.open img.device O_RDONLY fd :: q ++
        [Event.lseek fd (toOffT (offsetProperty img)) SEEK_SET pos, Event.close fd] =
        (Event.open img.device O_RDONLY fd :: q ++
          [Event.lseek fd (toOffT (offsetProperty img)) SEEK_SET pos]) ++
          [Event.close fd] := by simp
    rw [hshape] at hf
    obtain ⟨w1, hr, hwf⟩ := replay_close k _ fd w W hf
    have hopen : (k.c_open img.device O_RDONLY w).1 = fd := by
      simp only [List.cons_append, replay] at hr
      by_cases h1 : (k.c_open img.device O_RDONLY w).1 = fd
      · exact h1
      · rw [if_neg h1] at hr
        cases hr
    refine ⟨fun _ _ => by simp [hopen], ?_, ?_,
      fun h => absurd h (digestAccepted_not_rejected k img hash ha)⟩
    · intro path flags fd1 hmem h0
      have hfd1 : fd1 = fd := by
        rcases hres with ⟨_, hq, _⟩ | ⟨_, c, hq, _⟩ <;> subst hq <;> simp at hmem <;>
          exact hmem.2.2
      subst hfd1
      refine ⟨_, w1, hshape, ?_, ?_, hr, hwf⟩
      · rcases hres with ⟨_, hq, _⟩ | ⟨_, c, hq, _⟩ <;> subst hq <;> simp [isClose]
      · rcases hres with ⟨_, hq, _⟩ | ⟨_, c, hq, _⟩ <;> subst hq <;> simp [isOpen]
    · intro path flags fd1 hmem h0
      rcases hres with ⟨_, hq, _⟩ | ⟨_, c, hq, _⟩ <;> subst hq <;> simp at hmem <;> omega
  · rw [hS, hT] at ht; subst ht
    have hshape : Event.open img.device O_RDONLY fd :: q ++
        [Event.lseek fd (toOffT (offsetProperty img)) SEEK_SET pos,
          Event.copyfile (copyArgs fd sz h2) S, Event.close fd] =
        (Event.open img.device O_RDONLY fd :: q ++
          [Event.lseek fd (toOffT (offsetProperty img)) SEEK_SET pos,
            Event.copyfile (copyArgs fd sz h2) S]) ++
          [Event.close fd] := by simp
    rw [hshape] at hf
    obtain ⟨w1, hr, hwf⟩ := replay_close k _ fd w W hf
    have hopen : (k.c_open img.device O_RDONLY w).1 = fd := by
      simp only [List.cons_append, replay] at hr
      by_cases h1 : (k.c_open img.device O_RDONLY w).1 = fd
      · exact h1
      · rw [if_neg h1] at hr
        cases hr
    refine ⟨fun _ _ => by simp [hopen], ?_, ?_,
      fun h => absurd h (digestAccepted_not_rejected k img hash ha)⟩
    · intro path flags fd1 hmem h0
      have hfd1 : fd1 = fd := by
        rcases hres with ⟨_, hq, _⟩ | ⟨_, c, hq, _⟩ <;> subst hq <;> simp at hmem <;>
          exact hmem.2.2
      subst hfd1
      refine ⟨_, w1, hshape, ?_, ?_, hr, hwf⟩
      · rcases hres with ⟨_, hq, _⟩ | ⟨_, c, hq, _⟩ <;> subst hq <;> simp [isClose]
      · rcases hres with ⟨_, hq, _⟩ | ⟨_, c, hq, _⟩ <;> subst hq <;> simp [isOpen]
    · intro path flags fd1 hmem h0
      rcases hres with ⟨_, hq, _⟩ | ⟨_, c, hq, _⟩ <;> subst hq <;> simp at hmem <;> omega

theorem verify_closes_handle_witness :
    Event.open "/dev/mmcblk0p1" O_RDONLY 3 ∈
      (verify (diskKernel mebiDisk) rangeImage "readback" none).trace ∧
    (0 : Int) ≤ 3 ∧
    (∃ pre w1, (verify (diskKernel mebiDisk) rangeImage "readback" none).trace =
        pre ++ [Event.close 3] ∧
      (∀ e ∈ pre, isClose e = false) ∧ pre.countP isOpen = 1 ∧
      replay (diskKernel mebiDisk) pre none = some w1 ∧
      (verify (diskKernel mebiDisk) rangeImage "readback" none).world =
        (diskKernel mebiDisk).c_close 3 w1) ∧
    (verify (diskKernel mebiDisk) rangeImage "readback" none).world = none :=
  ⟨by decide, by decide,
    (verify_closes_handle (diskKernel mebiDisk) rangeImage "readback" none).2.1
      "/dev/mmcblk0p1" O_RDONLY 3 (by decide) (by decide),
    by decide⟩

/-- C9. On every run that reaches the digest pass, the calls are `pre`, then
one `lseek` with `SEEK_SET` on the descriptor opened in `pre`, then the
`copyfile`, then the `close`; there is no seek in `pre`, the seek is the
kernel's `lseek` on the world the calls of `pre` leave and it succeeded, and
the digest pass is the kernel's `copyfile` on the world that seek returned.
The target of the seek is the `offset` value converted to `off_t`: 0 when the
property is absent (no error), `v` when the property is the decimal numeral of
`v < 2^63`; on a system whose `lseek` rejects a negative target with
`SEEK_SET`, the same holds for every `v < 2^64`. -/
theorem verify_seeks_to_offset {σ : Type} (k : Kernel σ) (img : img_type) (n : String)
    (w : σ) :
    (∀ args ret, Event.copyfile args ret ∈ (verify k img n w).trace →
      ∃ pre pos w1,
        (verify k img n w).trace =
          pre ++ [Event.lseek args.fdin (toOffT (offsetProperty img)) SEEK_SET pos,
            Event.copyfile args ret, Event.close args.fdin] ∧
        (∀ e ∈ pre, isLseek e = false) ∧
        (verify k img n w).trace.filter isLseek =
          [Event.lseek args.fdin (toOffT (offsetProperty img)) SEEK_SET pos] ∧
        Event.open img.device O_RDONLY args.fdin ∈ pre ∧
        replay k pre w = some w1 ∧
        (k.c_lseek args.fdin (toOffT (offsetProperty img)) SEEK_SET w1).1 = pos ∧
        0 ≤ pos ∧
        (k.copyfile args
          (k.c_lseek args.fdin (toOffT (offsetProperty img)) SEEK_SET w1).2).1 = ret) ∧
    (dict_get_value img.properties "offset" = none → toOffT (offsetProperty img) = 0) ∧
    (∀ v : Nat, dict_get_value img.properties "offset" = some (toString v) → v < 2 ^ 63 →
      toOffT (offsetProperty img) = (v : Int)) ∧
    ((∀ fd off s, off < 0 → (k.c_lseek fd off SEEK_SET s).1 < 0) →
      ∀ v : Nat, dict_get_value img.properties "offset" = some (toString v) → v < 2 ^ 64 →
        ∀ args ret, Event.copyfile args ret ∈ (verify k img n w).trace →
          toOffT (offsetProperty img) = (v : Int)) := by
  have hfirst : ∀ args ret, Event.copyfile args ret ∈ (verify k img n w).trace →
      ∃ pre pos w1,
        (verify k img n w).trace =
          pre ++ [Event.lseek args.fdin (toOffT (offsetProperty img)) SEEK_SET pos,
            Event.copyfile args ret, Event.close args.fdin] ∧
        (∀ e ∈ pre, isLseek e = false) ∧
        (verify k img n w).trace.filter isLseek =
          [Event.lseek args.fdin (toOffT (offsetProperty img)) SEEK_SET pos] ∧
        Event.open img.device O_RDONLY args.fdin ∈ pre ∧
        replay k pre w = some w1 ∧
        (k.c_lseek args.fdin (toOffT (offsetProperty img)) SEEK_SET w1).1 = pos ∧
        0 ≤ pos ∧
        (k.copyfile args
          (k.c_lseek args.fdin (toOffT (offsetProperty img)) SEEK_SET w1).2).1 = ret := by
    have hf : replay k (verify k img n w).trace w = some (verify k img n w).world := by
      unfold verify
      simp only [seekAndDigest]
      repeat' split
      all_goals simp_all [replay]
    generalize hS : (verify k img n w).status = S at *
    generalize hT : (verify k img n w).trace = T at *
    generalize hW : (verify k img n w).world = W at *
    rcases verify_cases k img n w with ⟨_, hs, ht, _⟩ | ⟨hash, fd0, ha, hfd, hs, ht⟩ |
      ⟨hash, fd0, ha, hfd, hz, hs, ht⟩ |
      ⟨hash, fd0, q, sz, h2, pos, ha, hfd, hres, hpos, hs, ht⟩ |
      ⟨hash, fd0, q, sz, h2, pos, ha, hfd, hres, hpos, ht⟩
    · rw [hT] at ht; subst ht
      simp
    · rw [hT] at ht; subst ht
      simp
    · rw [hT] at ht; subst ht
      simp
    · rw [hT] at ht; subst ht
      rcases hres with ⟨_, hq, _⟩ | ⟨_, c, hq, _⟩ <;> subst hq <;> simp
    · rw [hS, hT] at ht; subst ht
      intro args ret hmem
      have hargs : args = copyArgs fd0 sz h2 ∧ ret = S := by
        rcases hres with ⟨_, hq, _⟩ | ⟨_, c, hq, _⟩ <;> subst hq <;> simpa using hmem
      obtain ⟨rfl, rfl⟩ := hargs
      have hshape : Event.open img.device O_RDONLY fd0 :: q ++
          [Event.lseek fd0 (toOffT (offsetProperty img)) SEEK_SET pos,
            Event.copyfile (copyArgs fd0 sz h2) ret, Event.close fd0] =
          (Event.open img.device O_RDONLY fd0 :: q) ++
            [Event.lseek fd0 (toOffT (offsetProperty img)) SEEK_SET pos,
              Event.copyfile (copyArgs fd0 sz h2) ret, Event.close fd0] := by simp
      rw [hshape] at hf
      obtain ⟨w1, hr, h1, h3, _⟩ := replay_seek_copy_close k _ _ _ _ _ _ _ w W hf
      refine ⟨Event.open img.device O_RDONLY fd0 :: q, pos, w1, hshape, ?_, ?_,
        by simp [copyArgs], hr, h1, hpos, h3⟩
      · rcases hres with ⟨_, hq, _⟩ | ⟨_, c, hq, _⟩ <;> subst hq <;> simp [isLseek]
      · rcases hres with ⟨_, hq, _⟩ | ⟨_, c, hq, _⟩ <;> subst hq <;>
          simp [isLseek, copyArgs]
  refine ⟨hfirst, ?_, ?_, ?_⟩
  · intro h
    unfold offsetProperty
    rw [h]
    decide
  · intro v hv h63
    rw [offsetProperty_toString img v hv (by omega)]
    exact toOffT_of_lt v h63
  · intro hposix v hv h64 args ret hmem
    rw [offsetProperty_toString img v hv h64]
    by_cases h63 : v < 2 ^ 63
    · exact toOffT_of_lt v h63
    · exfalso
      obtain ⟨pre, pos, w1, _, _, _, _, _, hl, hpos, _⟩ := hfirst args ret hmem
      have hneg : toOffT (offsetProperty img) < 0 := by
        rw [offsetProperty_toString img v hv h64]
        exact toOffT_neg v (by omega) h64
      have := hposix args.fdin (toOffT (offsetProperty img)) w1 hneg
      omega

theorem diskKernel_seek_set_negative (d : Disk) (fd off : Int) (s : Option Nat)
    (h : off < 0) : ((diskKernel d).c_lseek fd off SEEK_SET s).1 < 0 := by
  exact diskKernel_lseek_negative d fd off SEEK_SET s h

theorem verify_seeks_to_offset_witness :
    Event.copyfile (copyArgs 3 1024 (List.replicate 32 0xab)) 0 ∈
      (verify (diskKernel mebiDisk) rangeImage "readback" none).trace ∧
    dict_get_value rangeImage.properties "offset" = some (toString 512) ∧
    (∃ pre pos w1,
      (verify (diskKernel mebiDisk) rangeImage "readback" none).trace =
        pre ++ [Event.lseek 3 (toOffT (offsetProperty rangeImage)) SEEK_SET pos,
          Event.copyfile (copyArgs 3 1024 (List.replicate 32 0xab)) 0, Event.close 3] ∧
      (∀ e ∈ pre, isLseek e = false) ∧
      (verify (diskKernel mebiDisk) rangeImage "readback" none).trace.filter isLseek =
        [Event.lseek 3 (toOffT (offsetProperty rangeImage)) SEEK_SET pos] ∧
      Event.open rangeImage.device O_RDONLY 3 ∈ pre ∧
      replay (diskKernel mebiDisk) pre none = some w1 ∧
      ((diskKernel mebiDisk).c_lseek 3 (toOffT (offsetProperty rangeImage)) SEEK_SET w1).1 =
        pos ∧
      0 ≤ pos ∧
      ((diskKernel mebiDisk).copyfile (copyArgs 3 1024 (List.replicate 32 0xab))
        ((diskKernel mebiDisk).c_lseek 3 (toOffT (offsetProperty rangeImage)) SEEK_SET
          w1).2).1 = 0) ∧
    toOffT (offsetProperty rangeImage) = 512 ∧
    (∀ fd off s, off < 0 → ((diskKernel mebiDisk).c_lseek fd off SEEK_SET s).1 < 0) ∧
    toOffT (offsetProperty rangeImage) = ((512 : Nat) : Int) :=
  ⟨by decide, by decide,
    (verify_seeks_to_offset (diskKernel mebiDisk) rangeImage "readback" none).1
      (copyArgs 3 1024 (List.replicate 32 0xab)) 0 (by decide),
    (verify_seeks_to_offset (diskKernel mebiDisk) rangeImage "readback" none).2.2.1 512
      (by decide) (by decide),
    diskKernel_seek_set_negative mebiDisk,
    (verify_seeks_to_offset (diskKernel mebiDisk) rangeImage "readback" none).2.2.2
      (diskKernel_seek_set_negative mebiDisk) 512 (by decide) (by decide)
      (copyArgs 3 1024 (List.replicate 32 0xab)) 0 (by decide)⟩

/-- C3, as the code has it. When the `size` property is absent, the digest is
accepted, `open` returns a descriptor, the capacity query reports `c` with
`c < 2^32` and the seek succeeds, `verify` hands the length `c` itself to the
digest pass, whatever the offset: its calls are `open`, the query, the seek to
the offset, `copyfile` with `nbytes = c`, `close`; it returns what the
kernel's `copyfile` returns for that call on the world the seek left, and
leaves the world `close` returns.  With the `offset` property absent too the
seek is to 0, so the range is `(0, c)`. -/
theorem verify_absent_size_uses_capacity {σ : Type} (k : Kernel σ) (img : img_type)
    (n : String) (w : σ) (a : String) (hash : Hash) (fd : Int) (w1 : σ) (c : Nat)
    (w2 : σ) (pos : Int) (w3 : σ) (ret : Int) (w4 : σ)
    (ha : dict_get_value img.properties "sha256" = some a)
    (hh : k.ascii_to_hash a = some hash) (hv : k.IsValidHash hash = true)
    (hsize : dict_get_value img.properties "size" = none)
    (hopen : k.c_open img.device O_RDONLY w = (fd, w1)) (hfd : 0 ≤ fd)
    (hq : k.c_ioctl fd BLKGETSIZE64 w1 = (some c, w2)) (hc : c < 2 ^ 32)
    (hseek : k.c_lseek fd (toOffT (offsetProperty img)) SEEK_SET w2 = (pos, w3))
    (hpos : 0 ≤ pos)
    (hcopy : k.copyfile (copyArgs fd c (storeCapacity c hash).2) w3 = (ret, w4)) :
    (verify k img n w).status = ret ∧
    (verify k img n w).trace =
      [Event.open img.device O_RDONLY fd, Event.ioctl fd BLKGETSIZE64 (some c),
        Event.lseek fd (toOffT (offsetProperty img)) SEEK_SET pos,
        Event.copyfile (copyArgs fd c (storeCapacity c hash).2) ret, Event.close fd] ∧
    (copyArgs fd c (storeCapacity c hash).2).nbytes = c ∧
    (verify k img n w).world = k.c_close fd w4 ∧
    (dict_get_value img.properties "offset" = none → toOffT (offsetProperty img) = 0) := by
  have hsz : sizeProperty img = 0 := sizeProperty_zero_of img (Or.inl hsize)
  have hst : storeCapacity c hash = (c, [0, 0, 0, 0] ++ hash.drop 4) :=
    storeCapacity_of_lt c hash hc
  have hfd2 : ¬ fd < 0 := not_lt.mpr hfd
  have hpos2 : ¬ pos < 0 := not_lt.mpr hpos
  rw [hst] at hcopy
  rw [hst]
  have hcopy2 : k.copyfile (copyArgs fd c (0 :: 0 :: 0 :: 0 :: List.drop 4 hash)) w3 =
      (ret, w4) := by simpa using hcopy
  refine ⟨?_, ?_, rfl, ?_, ?_⟩
  · simp [verify, seekAndDigest, ha, hh, hv, hsz, hopen, hfd2, hq, hseek, hpos2, hst, hcopy2]
  · simp [verify, seekAndDigest, ha, hh, hv, hsz, hopen, hfd2, hq, hseek, hpos2, hst, hcopy2]
  · simp [verify, seekAndDigest, ha, hh, hv, hsz, hopen, hfd2, hq, hseek, hpos2, hst, hcopy2]
  · intro h
    unfold offsetProperty
    rw [h]
    decide

theorem verify_absent_size_uses_capacity_witness :
    dict_get_value wholeImage.properties "size" = none ∧
    (diskKernel mebiDisk).c_ioctl 3 BLKGETSIZE64 (some 0) = (some 1048576, some 0) ∧
    1048576 < 2 ^ 32 ∧
    ((verify (diskKernel mebiDisk) wholeImage "readback" none).status = -EFAULT ∧
      (verify (diskKernel mebiDisk) wholeImage "readback" none).trace =
        [Event.open wholeImage.device O_RDONLY 3, Event.ioctl 3 BLKGETSIZE64 (some 1048576),
          Event.lseek 3 (toOffT (offsetProperty wholeImage)) SEEK_SET 0,
          Event.copyfile
            (copyArgs 3 1048576 (storeCapacity 1048576 (List.replicate 32 0xab)).2) (-EFAULT),
          Event.close 3] ∧
      (copyArgs 3 1048576 (storeCapacity 1048576 (List.replicate 32 0xab)).2).nbytes =
        1048576 ∧
      (verify (diskKernel mebiDisk) wholeImage "readback" none).world =
        (diskKernel mebiDisk).c_close 3 (some 0) ∧
      (dict_get_value wholeImage.properties "offset" = none →
        toOffT (offsetProperty wholeImage) = 0)) :=
  ⟨by decide, by decide, by decide,
    verify_absent_size_uses_capacity (diskKernel mebiDisk) wholeImage "readback" none
      demoText (List.replicate 32 0xab) 3 (some 0) 1048576 (some 0) 0 (some 0) (-EFAULT)
      (some 0) (by decide) (by decide) (by decide) (by decide) (by decide) (by decide)
      (by decide) (by decide) (by decide) (by decide) (by decide)⟩

/-- C3 as stated fails: with no `size`, capacity 1,048,576 and offset 512 the
length handed to the digest pass is 1,048,576, not 1,048,576 − 512. -/
theorem verify_absent_size_ignores_offset :
    dict_get_value offsetImage.properties "size" = none ∧
    dict_get_value offsetImage.properties "offset" = some (toString 512) ∧
    (verify (diskKernel mebiDisk) offsetImage "readback" none).trace =
      [Event.open "/dev/mmcblk0p1" O_RDONLY 3, Event.ioctl 3 BLKGETSIZE64 (some 1048576),
        Event.lseek 3 512 SEEK_SET 512,
        Event.copyfile (copyArgs 3 1048576 ([0, 0, 0, 0] ++ List.replicate 28 0xab))
          (-EFAULT),
        Event.close 3] ∧
    (copyArgs 3 1048576 ([0, 0, 0, 0] ++ List.replicate 28 0xab)).nbytes ≠ 1048576 - 512 := by
  decide

/-- C4, as the code has it. When the `size` property is the decimal numeral of
`s` with `0 < s < 2^32`, the digest is accepted, `open` returns a descriptor
and the seek succeeds, `verify` hands exactly `s` to the digest pass: its calls
are `open`, the seek, `copyfile` with `nbytes = s` and the decoded digest,
`close`, with no capacity query; it returns what the kernel's `copyfile`
returns for that call on the world the seek left, and leaves the world `close`
returns. -/
theorem verify_explicit_size_verbatim {σ : Type} (k : Kernel σ) (img : img_type)
    (n : String) (w : σ) (s : Nat) (a : String) (hash : Hash) (fd : Int) (w1 : σ)
    (pos : Int) (w2 : σ) (ret : Int) (w3 : σ)
    (hsize : dict_get_value img.properties "size" = some (toString s))
    (h0 : 0 < s) (h32 : s < 2 ^ 32)
    (ha : dict_get_value img.properties "sha256" = some a)
    (hh : k.ascii_to_hash a = some hash) (hv : k.IsValidHash hash = true)
    (hopen : k.c_open img.device O_RDONLY w = (fd, w1)) (hfd : 0 ≤ fd)
    (hseek : k.c_lseek fd (toOffT (offsetProperty img)) SEEK_SET w1 = (pos, w2))
    (hpos : 0 ≤ pos)
    (hcopy : k.copyfile (copyArgs fd s hash) w2 = (ret, w3)) :
    (verify k img n w).status = ret ∧
    (verify k img n w).trace =
      [Event.open img.device O_RDONLY fd,
        Event.lseek fd (toOffT (offsetProperty img)) SEEK_SET pos,
        Event.copyfile (copyArgs fd s hash) ret, Event.close fd] ∧
    (copyArgs fd s hash).nbytes = s ∧
    (verify k img n w).trace.filter isIoctl = [] ∧
    (verify k img n w).world = k.c_close fd w3 := by
  have hsz : sizeProperty img = s := sizeProperty_toString img s hsize h32
  have hne : ¬ s = 0 := by omega
  have hfd2 : ¬ fd < 0 := not_lt.mpr hfd
  have hpos2 : ¬ pos < 0 := not_lt.mpr hpos
  refine ⟨?_, ?_, rfl, ?_, ?_⟩
  · simp [verify, seekAndDigest, ha, hh, hv, hsz, hne, hopen, hfd2, hseek, hpos2, hcopy]
  · simp [verify, seekAndDigest, ha, hh, hv, hsz, hne, hopen, hfd2, hseek, hpos2, hcopy]
  · simp [verify, seekAndDigest, ha, hh, hv, hsz, hne, hopen, hfd2, hseek, hpos2, hcopy,
      isIoctl]
  · simp [verify, seekAndDigest, ha, hh, hv, hsz, hne, hopen, hfd2, hseek, hpos2, hcopy]

theorem verify_explicit_size_verbatim_witness :
    dict_get_value rangeImage.properties "size" = some (toString 1024) ∧
    0 < 1024 ∧ 1024 < 2 ^ 32 ∧
    (diskKernel mebiDisk).copyfile (copyArgs 3 1024 (List.replicate 32 0xab)) (some 512) =
      (0, some 1536) ∧
    ((verify (diskKernel mebiDisk) rangeImage "readback" none).status = 0 ∧
      (verify (diskKernel mebiDisk) rangeImage "readback" none).trace =
        [Event.open rangeImage.device O_RDONLY 3,
          Event.lseek 3 (toOffT (offsetProperty rangeImage)) SEEK_SET 512,
          Event.copyfile (copyArgs 3 1024 (List.replicate 32 0xab)) 0, Event.close 3] ∧
      (copyArgs 3 1024 (List.replicate 32 0xab)).nbytes = 1024 ∧
      (verify (diskKernel mebiDisk) rangeImage "readback" none).trace.filter isIoctl = [] ∧
      (verify (diskKernel mebiDisk) rangeImage "readback" none).world =
        (diskKernel mebiDisk).c_close 3 (some 1536)) :=
  ⟨by decide, by decide, by decide, by decide,
    verify_explicit_size_verbatim (diskKernel mebiDisk) rangeImage "readback" none 1024
      demoText (List.replicate 32 0xab) 3 (some 0) 512 (some 512) 0 (some 1536)
      (by decide) (by decide) (by decide) (by decide) (by decide) (by decide) (by decide)
      (by decide) (by decide) (by decide) (by decide)⟩

/-- C4 as stated fails at `s = 0`: with the `size` property the numeral 0, the
capacity query is made and the length handed to the digest pass is the
capacity 1,048,576, not 0. -/
theorem verify_explicit_zero_size_replaced :
    dict_get_value zeroSizeImage.properties "size" = some (toString 0) ∧
    (verify (diskKernel mebiDisk) zeroSizeImage "readback" none).trace =
      [Event.open "/dev/mmcblk0p1" O_RDONLY 3, Event.ioctl 3 BLKGETSIZE64 (some 1048576),
        Event.lseek 3 0 SEEK_SET 0,
        Event.copyfile (copyArgs 3 1048576 ([0, 0, 0, 0] ++ List.replicate 28 0xab))
          (-EFAULT),
        Event.close 3] ∧
    (copyArgs 3 1048576 ([0, 0, 0, 0] ++ List.replicate 28 0xab)).nbytes ≠ 0 := by
  decide

/-- C5, as the code has it. A length of zero is not rejected: when the `size`
property is absent or converts to 0, the digest is accepted, `open` returns a
descriptor, the capacity query reports 0 and the seek succeeds, `verify` runs
the digest pass with `nbytes = 0`; it returns what the kernel's `copyfile`
returns for that call on the world the seek left, and leaves the world `close`
returns. -/
theorem verify_zero_length_digest_pass {σ : Type} (k : Kernel σ) (img : img_type)
    (n : String) (w : σ) (a : String) (hash : Hash) (fd : Int) (w1 w2 : σ) (pos : Int)
    (w3 : σ) (ret : Int) (w4 : σ)
    (ha : dict_get_value img.properties "sha256" = some a)
    (hh : k.ascii_to_hash a = some hash) (hv : k.IsValidHash hash = true)
    (hsize : dict_get_value img.properties "size" = none ∨
      ∃ text, dict_get_value img.properties "size" = some text ∧ strtoul text = 0)
    (hopen : k.c_open img.device O_RDONLY w = (fd, w1)) (hfd : 0 ≤ fd)
    (hq : k.c_ioctl fd BLKGETSIZE64 w1 = (some 0, w2))
    (hseek : k.c_lseek fd (toOffT (offsetProperty img)) SEEK_SET w2 = (pos, w3))
    (hpos : 0 ≤ pos)
    (hcopy : k.copyfile (copyArgs fd 0 (storeCapacity 0 hash).2) w3 = (ret, w4)) :
    (verify k img n w).status = ret ∧
    (verify k img n w).trace =
      [Event.open img.device O_RDONLY fd, Event.ioctl fd BLKGETSIZE64 (some 0),
        Event.lseek fd (toOffT (offsetProperty img)) SEEK_SET pos,
        Event.copyfile (copyArgs fd 0 (storeCapacity 0 hash).2) ret, Event.close fd] ∧
    (copyArgs fd 0 (storeCapacity 0 hash).2).nbytes = 0 ∧
    (verify k img n w).world = k.c_close fd w4 := by
  have hsz : sizeProperty img = 0 := sizeProperty_zero_of img hsize
  have hst : storeCapacity 0 hash = (0, [0, 0, 0, 0] ++ hash.drop 4) :=
    storeCapacity_of_lt 0 hash (by decide)
  have hfd2 : ¬ fd < 0 := not_lt.mpr hfd
  have hpos2 : ¬ pos < 0 := not_lt.mpr hpos
  rw [hst] at hcopy
  rw [hst]
  have hcopy2 : k.copyfile (copyArgs fd 0 (0 :: 0 :: 0 :: 0 :: List.drop 4 hash)) w3 =
      (ret, w4) := by simpa using hcopy
  refine ⟨?_, ?_, rfl, ?_⟩
  · simp [verify, seekAndDigest, ha, hh, hv, hsz, hopen, hfd2, hq, hseek, hpos2, hst, hcopy2]
  · simp [verify, seekAndDigest, ha, hh, hv, hsz, hopen, hfd2, hq, hseek, hpos2, hst, hcopy2]
  · simp [verify, seekAndDigest, ha, hh, hv, hsz, hopen, hfd2, hq, hseek, hpos2, hst, hcopy2]

theorem verify_zero_length_digest_pass_witness :
    dict_get_value emptyImage.properties "size" = none ∧
    (diskKernel emptyDisk).c_ioctl 3 BLKGETSIZE64 (some 0) = (some 0, some 0) ∧
    ((verify (diskKernel emptyDisk) emptyImage "readback" none).status = -EFAULT ∧
      (verify (diskKernel emptyDisk) emptyImage "readback" none).trace =
        [Event.open emptyImage.device O_RDONLY 3, Event.ioctl 3 BLKGETSIZE64 (some 0),
          Event.lseek 3 (toOffT (offsetProperty emptyImage)) SEEK_SET 0,
          Event.copyfile (copyArgs 3 0 (storeCapacity 0 sha256Empty).2) (-EFAULT),
          Event.close 3] ∧
      (copyArgs 3 0 (storeCapacity 0 sha256Empty).2).nbytes = 0 ∧
      (verify (diskKernel emptyDisk) emptyImage "readback" none).world =
        (diskKernel emptyDisk).c_close 3 (some 0)) :=
  ⟨by decide, by decide,
    verify_zero_length_digest_pass (diskKernel emptyDisk) emptyImage "readback" none
      sha256EmptyText sha256Empty 3 (some 0) (some 0) 0 (some 0) (-EFAULT) (some 0)
      (by decide) (by decide) (by decide) (Or.inl (by decide)) (by decide) (by decide)
      (by decide) (by decide) (by decide) (by decide)⟩

/-- C5 as stated fails: on a device of capacity 0, with no `size`, `verify`
does run the digest pass with length 0. -/
theorem verify_zero_length_reaches_digest_pass :
    dict_get_value emptyImage.properties "size" = none ∧
    (verify (diskKernel emptyDisk) emptyImage "readback" none).trace =
      [Event.open "/dev/loop0" O_RDONLY 3, Event.ioctl 3 BLKGETSIZE64 (some 0),
        Event.lseek 3 0 SEEK_SET 0,
        Event.copyfile (copyArgs 3 0 ([0, 0, 0, 0] ++ sha256Empty.drop 4)) (-EFAULT),
        Event.close 3] ∧
    (copyArgs 3 0 ([0, 0, 0, 0] ++ sha256Empty.drop 4)).nbytes = 0 ∧
    replay (diskKernel emptyDisk)
      (verify (diskKernel emptyDisk) emptyImage "readback" none).trace none =
      some (verify (diskKernel emptyDisk) emptyImage "readback" none).world := by
  decide

/-- No false success: when `verify` returns 0, the digest was accepted, `open`
returned a descriptor, the capacity query (made when `size` is 0) reported a
value, the seek succeeded, and the kernel's `copyfile`, called on the world the
seek left with the length and digest that `Resolved` describes, returned 0. -/
theorem verify_success_requires_all_steps {σ : Type} (k : Kernel σ) (img : img_type)
    (n : String) (w : σ) (h0 : (verify k img n w).status = 0) :
    ∃ hash fd q sz h2 pos w1, digestAccepted k img hash ∧ 0 ≤ fd ∧
      Resolved img fd hash q sz h2 ∧ 0 ≤ pos ∧
      (verify k img n w).trace =
        (Event.open img.device O_RDONLY fd :: q) ++
          [Event.lseek fd (toOffT (offsetProperty img)) SEEK_SET pos,
            Event.copyfile (copyArgs fd sz h2) 0, Event.close fd] ∧
      replay k (Event.open img.device O_RDONLY fd :: q) w = some w1 ∧
      (k.c_lseek fd (toOffT (offsetProperty img)) SEEK_SET w1).1 = pos ∧
      (k.copyfile (copyArgs fd sz h2)
        (k.c_lseek fd (toOffT (offsetProperty img)) SEEK_SET w1).2).1 = 0 := by
  have hf := verify_faithful k img n w
  rcases verify_cases k img n w with ⟨_, hs, ht, _⟩ | ⟨hash, fd, ha, hfd, hs, ht⟩ |
    ⟨hash, fd, ha, hfd, hsz, hs, ht⟩ |
    ⟨hash, fd, q, sz, h2, pos, ha, hfd, hres, hpos, hs, ht⟩ |
    ⟨hash, fd, q, sz, h2, pos, ha, hfd, hres, hpos, ht⟩
  · rw [h0] at hs; exact absurd hs (by decide)
  · rw [h0] at hs; exact absurd hs (by decide)
  · rw [h0] at hs; exact absurd hs (by decide)
  · rw [h0] at hs; exact absurd hs (by decide)
  · rw [h0] at ht
    have hshape : Event.open img.device O_RDONLY fd :: q ++
        [Event.lseek fd (toOffT (offsetProperty img)) SEEK_SET pos,
          Event.copyfile (copyArgs fd sz h2) 0, Event.close fd] =
        (Event.open img.device O_RDONLY fd :: q) ++
          [Event.lseek fd (toOffT (offsetProperty img)) SEEK_SET pos,
            Event.copyfile (copyArgs fd sz h2) 0, Event.close fd] := by simp
    rw [ht, hshape] at hf
    obtain ⟨w1, hr, h1, h3, _⟩ := replay_seek_copy_close k _ _ _ _ _ _ _ w _ hf
    exact ⟨hash, fd, q, sz, h2, pos, w1, ha, hfd, hres, hpos, by rw [ht, hshape], hr, h1, h3⟩

/-- C1 fails where the capacity query is made. On the device of 1,048,576
bytes, with no `size`, every step before the digest pass succeeds, and the
digest handed to `copyfile` is not the expected digest `ab…ab` decoded from the
`sha256` property: its first four bytes are the high half of the capacity that
the query stored at the address of `size`.  `verify` returns `-EFAULT`. -/
theorem verify_digest_overwritten_by_capacity_store :
    dict_get_value wholeImage.properties "sha256" = some demoText ∧
    (diskKernel mebiDisk).ascii_to_hash demoText = some (List.replicate 32 0xab) ∧
    (diskKernel mebiDisk).IsValidHash (List.replicate 32 0xab) = true ∧
    (verify (diskKernel mebiDisk) wholeImage "readback" none).trace =
      [Event.open "/dev/mmcblk0p1" O_RDONLY 3, Event.ioctl 3 BLKGETSIZE64 (some 1048576),
        Event.lseek 3 0 SEEK_SET 0,
        Event.copyfile (copyArgs 3 1048576 ([0, 0, 0, 0] ++ List.replicate 28 0xab))
          (-EFAULT),
        Event.close 3] ∧
    (copyArgs 3 1048576 ([0, 0, 0, 0] ++ List.replicate 28 0xab)).hash ≠
      List.replicate 32 0xab ∧
    (verify (diskKernel mebiDisk) wholeImage "readback" none).status = -EFAULT ∧
    replay (diskKernel mebiDisk)
      (verify (diskKernel mebiDisk) wholeImage "readback" none).trace none =
      some (verify (diskKernel mebiDisk) wholeImage "readback" none).world := by
  decide

end Readback
